import Mathlib

/-!
Verification development for the remote file exchange client (`src/main.py`).

The Python program is shallowly embedded: JSON values become the inductive
`JValue`, Python's runtime exceptions become `PyErr`, an HTTP response is a
status code together with the (possibly unparsable) JSON body and the raw
bytes, and the three operations `submit_file`, `list_files`, `download_file`
are translated as pure functions over explicit state (the tree-view cache of
rows, the current selection) that also return the operation's outcome and a
trace of externally visible events (network posts, save dialog, disk write).
-/

/-- A parsed JSON value, as produced by `response.json()`. -/
inductive JValue where
  | null : JValue
  | jbool : Bool → JValue
  | num : Int → JValue
  | str : String → JValue
  | arr : List JValue → JValue
  | obj : List (String × JValue) → JValue

/-- The Python runtime errors the code paths of `src/main.py` can raise. -/
inductive PyErr where
  | keyError : PyErr
  | typeError : PyErr
  | attributeError : PyErr
  | ioError : PyErr
deriving DecidableEq

/-- ASCII lowering of one character, the model of what `str.lower()` does to
the ASCII range (`'A'..'Z'` map to `'a'..'z'`, everything else unchanged). -/
def lowerCh (c : Char) : Char :=
  if 65 ≤ c.toNat ∧ c.toNat ≤ 90 then Char.ofNat (c.toNat + 32) else c

/-- Model of Python `s.lower()` (restricted to the ASCII case mapping). -/
def strLower (s : String) : String := ⟨s.data.map lowerCh⟩

/-- Lexicographic comparison of character lists by code point, the order
Python uses to compare strings. -/
def leChars : List Char → List Char → Bool
  | [], _ => true
  | _ :: _, [] => false
  | a :: as, b :: bs =>
    if a.toNat < b.toNat then true
    else if b.toNat < a.toNat then false
    else leChars as bs

/-- Model of Python `a <= b` on strings. -/
def strLe (a b : String) : Bool := leChars a.data b.data

/-- First-match lookup in a JSON object's field list (objects produced by
`json.loads` have unique keys). -/
def lookupKV (kvs : List (String × JValue)) (k : String) : Option JValue :=
  match kvs with
  | [] => none
  | (k', v) :: rest => if k' = k then some v else lookupKV rest k

/-- Python `d[k]`: `KeyError` when the key is absent, `TypeError` when the
value is not a dict. -/
def pySub (v : JValue) (k : String) : Except PyErr JValue :=
  match v with
  | .obj kvs =>
    match lookupKV kvs k with
    | some w => .ok w
    | none => .error .keyError
  | _ => .error .typeError

/-- Python `d.get(k, default)`: `AttributeError` when the value is not a
dict (non-dicts have no `get` method). -/
def pyGetD (v : JValue) (k : String) (d : JValue) : Except PyErr JValue :=
  match v with
  | .obj kvs =>
    match lookupKV kvs k with
    | some w => .ok w
    | none => .ok d
  | _ => .error .attributeError

/-- The sort key `lambda f: f.get('name', '').lower()` used by `list_files`:
`AttributeError` when `f` is not a dict or its `name` value is not a string. -/
def sortKey (f : JValue) : Except PyErr String :=
  match f with
  | .obj kvs =>
    match lookupKV kvs "name" with
    | some (.str s) => .ok (strLower s)
    | some _ => .error .attributeError
    | none => .ok (strLower "")
  | _ => .error .attributeError

/-- Pair each element with its computed sort key; CPython's `sorted` with a
`key` function computes every key before comparing. -/
def computeKeys : List JValue → Except PyErr (List (String × JValue))
  | [] => .ok []
  | x :: xs => do
    let k ← sortKey x
    let rest ← computeKeys xs
    pure ((k, x) :: rest)

/-- `sorted(xs, key=lambda f: f.get('name','').lower())` for a list argument:
a stable sort, ascending by the computed key. -/
def pySorted (xs : List JValue) : Except PyErr (List JValue) :=
  (computeKeys xs).map
    (fun keyed =>
      (List.insertionSort (fun a b => strLe a.1 b.1 = true) keyed).map
        (fun p => p.2))

/-- `sorted(files, key=...)` for an arbitrary JSON value `files`: non-iterable
values raise `TypeError`; iterating a non-empty dict or string feeds strings
to the key function, which raises `AttributeError`. -/
def pySortedCall (files : JValue) : Except PyErr (List JValue) :=
  match files with
  | .arr xs => pySorted xs
  | .obj [] => .ok []
  | .str "" => .ok []
  | .obj (_ :: _) => .error .attributeError
  | .str _ => .error .attributeError
  | _ => .error .typeError

/-- One row of the tree view cache: the values tuple inserted by
`file_tree.insert("", "end", values=(file_name, file_size, last_modified))`. -/
structure Row where
  name : JValue
  size : JValue
  lastModified : JValue

/-- Extraction of one row from a (dict) file item, mirroring
`file_item.get('name','N/A')`, `file_item.get('metadata',{}).get('size',0)`,
`file_item.get('metadata',{}).get('lastModified','N/A')`. -/
def buildRow (f : JValue) : Except PyErr Row := do
  let n ← pyGetD f "name" (.str "N/A")
  let md ← pyGetD f "metadata" (.obj [])
  let sz ← pyGetD md "size" (.num 0)
  let lm ← pyGetD md "lastModified" (.str "N/A")
  pure ⟨n, sz, lm⟩

/-- The insertion loop of `list_files`: rows are appended one at a time, so a
failure in the middle leaves the rows inserted so far in the tree. -/
def insertRows (fs : List JValue) (acc : List Row) : Option PyErr × List Row :=
  match fs with
  | [] => (none, acc)
  | f :: rest =>
    match buildRow f with
    | .ok r => insertRows rest (acc ++ [r])
    | .error e => (some e, acc)

/-- An HTTP response as the operations observe it: the status code, the body
parsed as JSON when `response.json()` would succeed (`none` models a
`json.JSONDecodeError`), and the raw body bytes used by `response.content`. -/
structure HttpResponse where
  status : Nat
  bodyJson : Option JValue
  bodyBytes : List Nat

/-- `os.getenv` result run through `get_env_variable`'s `if not value` check:
an unset variable and an empty-string variable both resolve to `none`. -/
def get_env_variable (raw : Option String) : Option String :=
  match raw with
  | none => none
  | some s => if s = "" then none else some s

/-- `_initial_get_env_variable` in `main()` applies the same `if not value`
falsiness check as `get_env_variable`, differing only in where the error is
logged. -/
def initial_get_env_variable (raw : Option String) : Option String :=
  match raw with
  | none => none
  | some s => if s = "" then none else some s

/-- `get_auth_token`: resolve the `SUPA_AUTH_TOKEN` environment value. -/
def get_auth_token (rawToken : Option String) : Option String :=
  get_env_variable rawToken

/-- The base64 alphabet character for a 6-bit index. -/
def b64Char (n : Nat) : Char :=
  "ABCDEFGHIJKLMNOPQRSTUVWXYZabcdefghijklmnopqrstuvwxyz0123456789+/".data.getD
    n '?'

/-- Search for a character in a list, returning its position offset by `i`. -/
def b64IndexGo (c : Char) : List Char → Nat → Option Nat
  | [], _ => none
  | d :: ds, i => if d = c then some i else b64IndexGo c ds (i + 1)

/-- Index of a character in the base64 alphabet. -/
def b64Index (c : Char) : Option Nat :=
  b64IndexGo c
    "ABCDEFGHIJKLMNOPQRSTUVWXYZabcdefghijklmnopqrstuvwxyz0123456789+/".data 0

/-- RFC 4648 base64 encoding of a byte list, processing three bytes into four
characters with `=` padding, as `base64.b64encode` does. -/
def b64EncChunks : List Nat → List Char
  | [] => []
  | [a] => [b64Char (a / 4), b64Char (a % 4 * 16), '=', '=']
  | [a, b] => [b64Char (a / 4), b64Char (a % 4 * 16 + b / 16),
      b64Char (b % 16 * 4), '=']
  | a :: b :: c :: rest =>
    b64Char (a / 4) :: b64Char (a % 4 * 16 + b / 16) ::
      b64Char (b % 16 * 4 + c / 64) :: b64Char (c % 64) :: b64EncChunks rest

/-- `base64.b64encode(content).decode('utf-8')`: the ASCII text embedded in
the submit request body. -/
def b64encode (bs : List Nat) : String := ⟨b64EncChunks bs⟩

/-- Base64 decoding of a four-character group stream with `=` padding,
reconstructing the original bytes (`base64.b64decode`). -/
def b64DecChunks : List Char → Option (List Nat)
  | [] => some []
  | c1 :: c2 :: c3 :: c4 :: rest => do
    let i1 ← b64Index c1
    let i2 ← b64Index c2
    if c3 = '=' ∧ c4 = '=' ∧ rest = [] then
      some [i1 * 4 + i2 / 16]
    else if c4 = '=' ∧ rest = [] then do
      let i3 ← b64Index c3
      some [i1 * 4 + i2 / 16, i2 % 16 * 16 + i3 / 4]
    else do
      let i3 ← b64Index c3
      let i4 ← b64Index c4
      let tail ← b64DecChunks rest
      some ((i1 * 4 + i2 / 16) :: (i2 % 16 * 16 + i3 / 4) ::
        (i3 % 4 * 64 + i4) :: tail)
  | _ => none

/-- `base64.b64decode` applied to the text form. -/
def b64decode (s : String) : Option (List Nat) := b64DecChunks s.data

/-- Externally visible events of one operation: network posts (with the data
that reaches the wire), the save dialog, and the disk write. -/
inductive Event where
  | postSubmit : String → String → Event
  | postList : Event
  | postDownload : String → Event
  | listInvoked : Event
  | askSavePath : Event
  | writeFile : String → List Nat → Event
deriving DecidableEq

/-- Whether an event is a network request. -/
def Event.isNetworkPost : Event → Bool
  | .postSubmit _ _ => true
  | .postList => true
  | .postDownload _ => true
  | _ => false

/-- Outcome of `list_files`, one per exit path of the function. -/
inductive ListOutcome where
  | ok : JValue → ListOutcome
  | configMissing : ListOutcome
  | missingToken : ListOutcome
  | httpFailure : Nat → ListOutcome
  | transportError : ListOutcome
  | malformedResponse : ListOutcome
  | unexpectedError : PyErr → ListOutcome

/-- Result of one `list_files` call: the outcome, the tree cache afterwards,
and the events that occurred. -/
structure ListResult where
  outcome : ListOutcome
  cache : List Row
  events : List Event

/-- Shallow embedding of `list_files` (`src/main.py:142-198`). Inputs: the
`SUPA_UNPACK_API_URL` global, the raw `SUPA_AUTH_TOKEN` environment value,
the network exchange result (`Except.error` models a raised
`requests.exceptions.RequestException`), and the tree cache before the call.
The tree is cleared only after `response_data['message']` succeeded, and rows
are inserted one by one, so later failures leave a cleared or partially
repopulated tree. -/
def list_files (unpackUrl : Option String) (rawToken : Option String)
    (net : Except Unit HttpResponse) (cache : List Row) : ListResult :=
  match unpackUrl with
  | none => ⟨.configMissing, cache, [.listInvoked]⟩
  | some _ =>
    match get_auth_token rawToken with
    | none => ⟨.missingToken, cache, [.listInvoked]⟩
    | some _ =>
      let evs : List Event := [.listInvoked, .postList]
      match net with
      | .error _ => ⟨.transportError, cache, evs⟩
      | .ok r =>
        if r.status = 200 then
          match r.bodyJson with
          | none => ⟨.malformedResponse, cache, evs⟩
          | some v =>
            match pySub v "message" with
            | .error e => ⟨.unexpectedError e, cache, evs⟩
            | .ok _ =>
              match pyGetD v "files" (.arr []) with
              | .error e => ⟨.unexpectedError e, [], evs⟩
              | .ok files =>
                match pySortedCall files with
                | .error e => ⟨.unexpectedError e, [], evs⟩
                | .ok sortedFiles =>
                  match insertRows sortedFiles [] with
                  | (some e, rowsSoFar) => ⟨.unexpectedError e, rowsSoFar, evs⟩
                  | (none, rows) =>
                    match pyGetD v "count" (.num 0) with
                    | .error e => ⟨.unexpectedError e, rows, evs⟩
                    | .ok cnt => ⟨.ok cnt, rows, evs⟩
        else
          ⟨.httpFailure r.status, cache, evs⟩

/-- Outcome of `submit_file`, one per exit path of the function. -/
inductive SubmitOutcome where
  | ok : SubmitOutcome
  | noSelection : SubmitOutcome
  | configMissing : SubmitOutcome
  | missingToken : SubmitOutcome
  | httpFailure : Nat → SubmitOutcome
  | transportError : SubmitOutcome
  | unexpectedError : PyErr → SubmitOutcome
deriving DecidableEq

/-- Result of one `submit_file` call: outcome, tree cache and selection
afterwards, and the events that occurred. -/
structure SubmitResult where
  outcome : SubmitOutcome
  cache : List Row
  selection : Option String
  events : List Event

/-- Shallow embedding of `submit_file` (`src/main.py:87-139`). Inputs: the
`selected_file` global (as its display name), the `SUPA_UNPACK_API_URL`
global, the raw token value, the result of reading the selected file
(`Except.error` models an `OSError`, caught by the generic handler), the
submit exchange, plus the list exchange used by the chained `list_files()`
call, and the tree cache before the call. `selected_file` is never assigned,
so the selection is returned unchanged. -/
def submit_file (selection : Option String) (unpackUrl : Option String)
    (rawToken : Option String) (fileRead : Except Unit (List Nat))
    (net : Except Unit HttpResponse) (listNet : Except Unit HttpResponse)
    (cache : List Row) : SubmitResult :=
  match selection with
  | none => ⟨.noSelection, cache, selection, []⟩
  | some filename =>
    match unpackUrl with
    | none => ⟨.configMissing, cache, selection, []⟩
    | some _ =>
      match fileRead with
      | .error _ => ⟨.unexpectedError .ioError, cache, selection, []⟩
      | .ok content =>
        let encoded := b64encode content
        match get_auth_token rawToken with
        | none => ⟨.missingToken, cache, selection, []⟩
        | some _ =>
          let evs : List Event := [.postSubmit filename encoded]
          match net with
          | .error _ => ⟨.transportError, cache, selection, evs⟩
          | .ok r =>
            if r.status = 200 then
              let lr := list_files unpackUrl rawToken listNet cache
              ⟨.ok, lr.cache, selection, evs ++ lr.events⟩
            else
              ⟨.httpFailure r.status, cache, selection, evs⟩

/-- Outcome of `download_file`, one per exit path of the function. -/
inductive DownloadOutcome where
  | saved : String → DownloadOutcome
  | cancelled : DownloadOutcome
  | noItem : DownloadOutcome
  | noFilename : DownloadOutcome
  | configMissing : DownloadOutcome
  | missingToken : DownloadOutcome
  | notFound : String → DownloadOutcome
  | httpFailure : Nat → DownloadOutcome
  | transportError : DownloadOutcome
deriving DecidableEq

/-- Result of one `download_file` call: outcome, tree cache afterwards (the
function only reads the tree), and the events that occurred. -/
structure DownloadResult where
  outcome : DownloadOutcome
  cache : List Row
  events : List Event

/-- Shallow embedding of `download_file` (`src/main.py:201-265`). Inputs: the
filename taken from the clicked tree item (`none` models no item under the
cursor), the `SUPA_MAIN_API_URL` global, the raw token value, the download
exchange, the save dialog result (`none` models a cancelled dialog), and the
tree cache. The save dialog is consulted only on status 200, and only a
provided destination is written. -/
def download_file (itemFilename : Option String) (mainUrl : Option String)
    (rawToken : Option String) (net : Except Unit HttpResponse)
    (savePath : Option String) (cache : List Row) : DownloadResult :=
  match itemFilename with
  | none => ⟨.noItem, cache, []⟩
  | some filename =>
    if filename = "" then ⟨.noFilename, cache, []⟩
    else
      match mainUrl with
      | none => ⟨.configMissing, cache, []⟩
      | some _ =>
        match get_auth_token rawToken with
        | none => ⟨.missingToken, cache, []⟩
        | some _ =>
          let evs : List Event := [.postDownload filename]
          match net with
          | .error _ => ⟨.transportError, cache, evs⟩
          | .ok r =>
            if r.status = 200 then
              match savePath with
              | some p =>
                ⟨.saved p, cache, evs ++ [.askSavePath, .writeFile p r.bodyBytes]⟩
              | none => ⟨.cancelled, cache, evs ++ [.askSavePath]⟩
            else if r.status = 404 then
              ⟨.notFound ("File '" ++ filename ++ "' not found on the server."),
                cache, evs⟩
            else
              ⟨.httpFailure r.status, cache, evs⟩

/-- Whether a file item's computed sort key equals `k`. -/
def keyIs (k : String) (f : JValue) : Bool :=
  match sortKey f with
  | .ok kf => decide (kf = k)
  | .error _ => false

/-- A sample entry named `b.txt` as the list endpoint reports it. -/
def entryB : JValue :=
  .obj [("name", .str "b.txt"),
    ("metadata", .obj [("size", .num 2), ("lastModified", .str "m2")])]

/-- A sample entry named `A.txt`. -/
def entryA : JValue :=
  .obj [("name", .str "A.txt"),
    ("metadata", .obj [("size", .num 1), ("lastModified", .str "m1")])]

/-- A sample entry named `c.TXT`. -/
def entryC : JValue :=
  .obj [("name", .str "c.TXT"),
    ("metadata", .obj [("size", .num 3), ("lastModified", .str "m3")])]

/-- A sample list response body carrying the three entries above in server
order `b.txt, A.txt, c.TXT`. -/
def listBody3 : JValue :=
  .obj [("message", .str "3 files"),
    ("files", .arr [entryB, entryA, entryC]), ("count", .num 3)]

/-- A tree row that was in the cache before a refresh. -/
def oldRow : Row := ⟨.str "old.txt", .num 9, .str "m0"⟩

theorem leChars_refl : ∀ l : List Char, leChars l l = true
  | [] => rfl
  | a :: as => by simp [leChars, leChars_refl as]

theorem leChars_total : ∀ l₁ l₂, leChars l₁ l₂ = true ∨ leChars l₂ l₁ = true
  | [], _ => Or.inl rfl
  | _ :: _, [] => Or.inr rfl
  | a :: as, b :: bs => by
    rcases Nat.lt_trichotomy a.toNat b.toNat with h | h | h
    · left; simp [leChars, h]
    · rcases leChars_total as bs with ih | ih
      · left; simp [leChars, h, ih]
      · right; simp [leChars, h, ih]
    · right; simp [leChars, h]

theorem leChars_trans : ∀ l₁ l₂ l₃, leChars l₁ l₂ = true → leChars l₂ l₃ = true →
    leChars l₁ l₃ = true
  | [], _, _, _, _ => rfl
  | _ :: _, [], _, h, _ => by simp [leChars] at h
  | _ :: _, _ :: _, [], _, h => by simp [leChars] at h
  | a :: as, b :: bs, c :: cs, h₁, h₂ => by
    simp only [leChars] at h₁ h₂ ⊢
    rcases Nat.lt_trichotomy a.toNat b.toNat with hab | hab | hab
    · rcases Nat.lt_trichotomy b.toNat c.toNat with hbc | hbc | hbc
      · simp [Nat.lt_trans hab hbc]
      · simp [hbc ▸ hab]
      · simp [hbc] at h₂; omega
    · rcases Nat.lt_trichotomy b.toNat c.toNat with hbc | hbc | hbc
      · simp [hab ▸ hbc]
      · have : a.toNat = c.toNat := hab.trans hbc
        simp [hab] at h₁
        simp [hbc] at h₂
        simp [this, leChars_trans as bs cs h₁ h₂]
      · simp [hbc] at h₂; omega
    · simp [hab] at h₁; omega

theorem strLe_refl (s : String) : strLe s s = true := leChars_refl s.data

theorem strLe_total (a b : String) : strLe a b = true ∨ strLe b a = true :=
  leChars_total a.data b.data

theorem strLe_trans {a b c : String} (h₁ : strLe a b = true)
    (h₂ : strLe b c = true) : strLe a c = true :=
  leChars_trans a.data b.data c.data h₁ h₂

theorem keyRel_total : ∀ a b : String × JValue,
    strLe a.1 b.1 = true ∨ strLe b.1 a.1 = true :=
  fun a b => strLe_total a.1 b.1

-- stability of orderedInsert with respect to equal-key filtering
theorem orderedInsert_filter_key (x : String × JValue) (k : String) :
    ∀ l : List (String × JValue),
    (l.orderedInsert (fun a b => strLe a.1 b.1 = true) x).filter
        (fun p => decide (p.1 = k)) =
      if x.1 = k then
        x :: l.filter (fun p => decide (p.1 = k))
      else l.filter (fun p => decide (p.1 = k))
  | [] => by
    simp only [List.orderedInsert, List.filter]
    by_cases h : x.1 = k <;> simp [h]
  | b :: l => by
    simp only [List.orderedInsert]
    by_cases hr : strLe x.1 b.1 = true
    · simp only [if_pos hr]
      by_cases hx : x.1 = k <;> simp [List.filter, hx]
    · simp only [if_neg hr]
      have hne : x.1 ≠ b.1 := by
        intro he
        exact hr (he ▸ strLe_refl x.1)
      by_cases hx : x.1 = k
      · have hb : ¬ (b.1 = k) := fun hbk => hne (hx.trans hbk.symm)
        simp [List.filter, hb, hx, orderedInsert_filter_key x k l]
      · by_cases hb : b.1 = k <;>
          simp [List.filter, hb, hx, orderedInsert_filter_key x k l]

theorem insertionSort_filter_key (k : String) :
    ∀ l : List (String × JValue),
    ((l.insertionSort (fun a b => strLe a.1 b.1 = true)).filter
        (fun p => decide (p.1 = k))) = l.filter (fun p => decide (p.1 = k))
  | [] => rfl
  | x :: l => by
    simp only [List.insertionSort]
    rw [orderedInsert_filter_key x k]
    by_cases hx : x.1 = k <;>
      simp [List.filter, hx, insertionSort_filter_key k l]

theorem computeKeys_map_snd : ∀ {xs : List JValue} {keyed},
    computeKeys xs = .ok keyed → keyed.map Prod.snd = xs
  | [], keyed, h => by
    simp only [computeKeys] at h
    cases h
    rfl
  | x :: xs, keyed, h => by
    simp only [computeKeys] at h
    cases hk : sortKey x with
    | error e => rw [hk] at h; cases h
    | ok k =>
      rw [hk] at h
      cases hr : computeKeys xs with
      | error e => rw [hr] at h; cases h
      | ok rest =>
        rw [hr] at h
        cases h
        simp [computeKeys_map_snd hr]

theorem computeKeys_keys : ∀ {xs : List JValue} {keyed},
    computeKeys xs = .ok keyed → ∀ p ∈ keyed, sortKey p.2 = .ok p.1
  | [], keyed, h => by
    simp only [computeKeys] at h
    cases h
    intro p hp
    cases hp
  | x :: xs, keyed, h => by
    simp only [computeKeys] at h
    cases hk : sortKey x with
    | error e => rw [hk] at h; cases h
    | ok k =>
      rw [hk] at h
      cases hr : computeKeys xs with
      | error e => rw [hr] at h; cases h
      | ok rest =>
        rw [hr] at h
        cases h
        intro p hp
        rcases List.mem_cons.mp hp with rfl | hp
        · exact hk
        · exact computeKeys_keys hr p hp

theorem pySorted_ok {xs fs : List JValue} (h : pySorted xs = .ok fs) :
    ∃ keyed, computeKeys xs = .ok keyed ∧
      fs = (keyed.insertionSort (fun a b => strLe a.1 b.1 = true)).map
        (fun p => p.2) := by
  cases hk : computeKeys xs with
  | error e => simp [pySorted, hk, Except.map] at h
  | ok keyed =>
    refine ⟨keyed, rfl, ?_⟩
    simp [pySorted, hk, Except.map] at h
    exact h.symm

theorem pySorted_spec {xs fs : List JValue} (h : pySorted xs = .ok fs) :
    fs.Perm xs ∧
    fs.Pairwise (fun f g => ∀ kf kg, sortKey f = .ok kf → sortKey g = .ok kg →
      strLe kf kg = true) ∧
    (∀ k, fs.filter (keyIs k) = xs.filter (keyIs k)) := by
  obtain ⟨keyed, hk, rfl⟩ := pySorted_ok h
  have hsnd : keyed.map (fun p => p.2) = xs := computeKeys_map_snd hk
  have hkeys := computeKeys_keys hk
  haveI : IsTotal (String × JValue) (fun a b => strLe a.1 b.1 = true) :=
    ⟨keyRel_total⟩
  haveI : IsTrans (String × JValue) (fun a b => strLe a.1 b.1 = true) :=
    ⟨fun _ _ _ => strLe_trans⟩
  have hperm := List.perm_insertionSort (fun a b => strLe a.1 b.1 = true) keyed
  refine ⟨?_, ?_, ?_⟩
  · have hmap := hperm.map (fun p => p.2)
    rwa [hsnd] at hmap
  · have hsorted :=
      List.sorted_insertionSort (fun a b => strLe a.1 b.1 = true) keyed
    rw [List.pairwise_map]
    refine List.Pairwise.imp_of_mem ?_ hsorted
    intro p q hp hq hrel kf kg hkf hkg
    have hp' : sortKey p.2 = .ok p.1 := hkeys p (hperm.mem_iff.mp hp)
    have hq' : sortKey q.2 = .ok q.1 := hkeys q (hperm.mem_iff.mp hq)
    have ekf : kf = p.1 := by
      rw [hp'] at hkf
      exact (Except.ok.inj hkf).symm
    have ekg : kg = q.1 := by
      rw [hq'] at hkg
      exact (Except.ok.inj hkg).symm
    rw [ekf, ekg]
    exact hrel
  · intro k
    have heqfilter : ∀ l : List (String × JValue),
        (∀ p ∈ l, sortKey p.2 = .ok p.1) →
        l.filter (fun p => keyIs k p.2) = l.filter (fun p => decide (p.1 = k)) := by
      intro l hl
      refine List.filter_congr ?_
      intro p hp
      simp only [keyIs, hl p hp]
    rw [List.filter_map]
    have hmemSort : ∀ p ∈ List.insertionSort (fun a b => strLe a.1 b.1 = true)
        keyed, sortKey p.2 = .ok p.1 :=
      fun p hp => hkeys p (hperm.mem_iff.mp hp)
    have h1 := heqfilter _ hmemSort
    have h2 := heqfilter _ hkeys
    calc ((List.insertionSort (fun a b => strLe a.1 b.1 = true) keyed).filter
            ((keyIs k) ∘ (fun p => p.2))).map (fun p => p.2)
        = ((List.insertionSort (fun a b => strLe a.1 b.1 = true) keyed).filter
            (fun p => decide (p.1 = k))).map (fun p => p.2) := by rw [← h1]; rfl
      _ = (keyed.filter (fun p => decide (p.1 = k))).map (fun p => p.2) := by
            rw [insertionSort_filter_key]
      _ = (keyed.filter ((keyIs k) ∘ (fun p => p.2))).map (fun p => p.2) := by
            rw [← h2]; rfl
      _ = (keyed.map (fun p => p.2)).filter (keyIs k) := by
            rw [List.filter_map]
      _ = xs.filter (keyIs k) := by rw [hsnd]

theorem b64Index_b64Char : ∀ n, n < 64 → b64Index (b64Char n) = some n := by
  decide

theorem b64Char_ne_pad (n : Nat) : b64Char n ≠ '=' := by
  by_cases h : n < 64
  · have hall : ∀ m, m < 64 → b64Char m ≠ '=' := by decide
    exact hall n h
  · unfold b64Char
    rw [List.getD_eq_default]
    · decide
    · simp only [List.length]
      omega

theorem b64DecChunks_encChunks : ∀ bs : List Nat, (∀ b ∈ bs, b < 256) →
    b64DecChunks (b64EncChunks bs) = some bs
  | [], _ => rfl
  | [a], h => by
    have ha : a < 256 := h a (by simp)
    have h1 : a / 4 < 64 := by omega
    have h2 : a % 4 * 16 < 64 := by omega
    simp only [b64EncChunks, b64DecChunks, b64Index_b64Char _ h1,
      b64Index_b64Char _ h2]
    simp
    omega
  | [a, b], h => by
    have ha : a < 256 := h a (by simp)
    have hb : b < 256 := h b (by simp)
    have h1 : a / 4 < 64 := by omega
    have h2 : a % 4 * 16 + b / 16 < 64 := by omega
    have h3 : b % 16 * 4 < 64 := by omega
    simp only [b64EncChunks, b64DecChunks, b64Index_b64Char _ h1,
      b64Index_b64Char _ h2, b64Index_b64Char _ h3]
    simp [b64Char_ne_pad]
    omega
  | a :: b :: c :: rest, h => by
    have ha : a < 256 := h a (by simp)
    have hb : b < 256 := h b (by simp)
    have hc : c < 256 := h c (by simp)
    have hrest : ∀ x ∈ rest, x < 256 := fun x hx => h x (by simp [hx])
    have h1 : a / 4 < 64 := by omega
    have h2 : a % 4 * 16 + b / 16 < 64 := by omega
    have h3 : b % 16 * 4 + c / 64 < 64 := by omega
    have h4 : c % 64 < 64 := by omega
    simp only [b64EncChunks, b64DecChunks, b64Index_b64Char _ h1,
      b64Index_b64Char _ h2, b64Index_b64Char _ h3, b64Index_b64Char _ h4]
    simp [b64Char_ne_pad, b64DecChunks_encChunks rest hrest]
    omega
theorem insertRows_none : ∀ (fs : List JValue) (acc rows : List Row),
    insertRows fs acc = (none, rows) →
    ∃ built, rows = acc ++ built ∧
      List.Forall₂ (fun f row => buildRow f = .ok row) fs built
  | [], acc, rows, h => by
    simp only [insertRows, Prod.mk.injEq, true_and] at h
    exact ⟨[], by simp [h], List.Forall₂.nil⟩
  | f :: rest, acc, rows, h => by
    cases hb : buildRow f with
    | error e => simp [insertRows, hb] at h
    | ok r =>
      simp only [insertRows, hb] at h
      obtain ⟨built, hr, hf⟩ := insertRows_none rest (acc ++ [r]) rows h
      refine ⟨r :: built, ?_, List.Forall₂.cons hb hf⟩
      simp [hr]

/-- C5: for every byte string, decoding the upload encoding returns the
original bytes: `base64.b64decode(base64.b64encode(bs)) == bs`. -/
theorem b64_roundtrip (bs : List Nat) (h : ∀ b ∈ bs, b < 256) :
    b64decode (b64encode bs) = some bs := by
  have hdata : (b64encode bs).data = b64EncChunks bs := rfl
  rw [b64decode, hdata]
  exact b64DecChunks_encChunks bs h

/-- Witness for C5 at the four bytes `%PDF`. -/
theorem b64_roundtrip_witness :
    (∀ b ∈ [37, 80, 68, 70], b < 256) ∧
      b64decode (b64encode [37, 80, 68, 70]) = some [37, 80, 68, 70] :=
  ⟨by decide, b64_roundtrip [37, 80, 68, 70] (by decide)⟩

/-- C6: a download answered with status 404 yields the `NotFound` outcome
with its specific message, consults no save dialog, writes no file, and
leaves the cache unchanged. -/
theorem download_404_yields_notFound_without_write (fn u t : String)
    (rt : Option String) (r : HttpResponse) (sp : Option String)
    (cache : List Row) (hfn : fn ≠ "") (htok : get_auth_token rt = some t)
    (h404 : r.status = 404) :
    download_file (some fn) (some u) rt (.ok r) sp cache =
      ⟨.notFound ("File '" ++ fn ++ "' not found on the server."), cache,
        [.postDownload fn]⟩ := by
  simp [download_file, hfn, htok, h404]

/-- Witness for C6 at a concrete file name and response. -/
theorem download_404_witness :
    download_file (some "f.txt") (some "https://main") (some "tok")
        (.ok ⟨404, none, []⟩) (some "/tmp/out.pdf") [oldRow] =
      ⟨.notFound "File 'f.txt' not found on the server.", [oldRow],
        [.postDownload "f.txt"]⟩ :=
  download_404_yields_notFound_without_write "f.txt" "https://main" "tok"
    (some "tok") ⟨404, none, []⟩ (some "/tmp/out.pdf") [oldRow]
    (by decide) rfl rfl

/-- C8: Submit with no selected file reports the no-selection error and
performs no event at all — in particular zero network calls. -/
theorem submit_without_selection_no_network (unpackUrl rawToken : Option String)
    (fileRead : Except Unit (List Nat)) (net listNet : Except Unit HttpResponse)
    (cache : List Row) :
    submit_file none unpackUrl rawToken fileRead net listNet cache =
      ⟨.noSelection, cache, none, []⟩ := rfl

/-- C10: an environment value that is present but empty resolves exactly like
an absent one — in both resolution helpers — and each operation behaves
identically under an empty and an unset token. -/
theorem empty_env_value_equals_unset :
    get_env_variable (some "") = none ∧
    get_env_variable none = none ∧
    initial_get_env_variable (some "") = none ∧
    initial_get_env_variable none = none ∧
    (∀ unpackUrl net cache,
      list_files unpackUrl (some "") net cache =
        list_files unpackUrl none net cache) ∧
    (∀ sel unpackUrl fileRead net listNet cache,
      submit_file sel unpackUrl (some "") fileRead net listNet cache =
        submit_file sel unpackUrl none fileRead net listNet cache) ∧
    (∀ fn mainUrl net sp cache,
      download_file fn mainUrl (some "") net sp cache =
        download_file fn mainUrl none net sp cache) := by
  refine ⟨rfl, rfl, rfl, rfl, ?_, ?_, ?_⟩
  · intro unpackUrl net cache
    cases unpackUrl <;> rfl
  · intro sel unpackUrl fileRead net listNet cache
    cases sel <;> cases unpackUrl <;> cases fileRead <;> rfl
  · intro fn mainUrl net sp cache
    cases fn with
    | none => rfl
    | some f =>
      by_cases hf : f = ""
      · simp [download_file, hf]
      · cases mainUrl with
        | none => simp [download_file, hf]
        | some u => simp [download_file, hf, get_auth_token, get_env_variable]

/-- C1 (amended): after a List call whose 200 response parses, carries a
`message` field, and whose entries produce sort keys and rows without error,
the cache is exactly the rows of the entries sorted ascending by
case-insensitive name — a stable sort: a permutation of the server entries,
pairwise ordered on keys, equal-key entries kept in server order — and the
prior cache contents are discarded entirely. -/
theorem list_success_installs_sorted_entries (u t : String)
    (rt : Option String) (r : HttpResponse) (v m cnt : JValue)
    (xs fs : List JValue) (rows cache : List Row)
    (htok : get_auth_token rt = some t) (h200 : r.status = 200)
    (hbody : r.bodyJson = some v) (hmsg : pySub v "message" = .ok m)
    (hfiles : pyGetD v "files" (.arr []) = .ok (.arr xs))
    (hsort : pySorted xs = .ok fs) (hins : insertRows fs [] = (none, rows))
    (hcnt : pyGetD v "count" (.num 0) = .ok cnt) :
    list_files (some u) rt (.ok r) cache =
      ⟨.ok cnt, rows, [.listInvoked, .postList]⟩ ∧
    List.Forall₂ (fun f row => buildRow f = .ok row) fs rows ∧
    fs.Perm xs ∧
    fs.Pairwise (fun f g => ∀ kf kg, sortKey f = .ok kf →
      sortKey g = .ok kg → strLe kf kg = true) ∧
    (∀ k, fs.filter (keyIs k) = xs.filter (keyIs k)) := by
  obtain ⟨hperm, hpair, hstab⟩ := pySorted_spec hsort
  obtain ⟨built, hrows, hforall⟩ := insertRows_none fs [] rows hins
  refine ⟨?_, ?_, hperm, hpair, hstab⟩
  · simp [list_files, pySortedCall, htok, h200, hbody, hmsg, hfiles, hsort,
      hins, hcnt]
  · simpa [hrows] using hforall

/-- Witness for C1: the spec's `b.txt, A.txt, c.TXT` example refreshing a
non-empty cache. -/
theorem list_success_installs_sorted_entries_witness :
    (list_files (some "https://unpack") (some "tok")
        (.ok ⟨200, some listBody3, []⟩) [oldRow] =
      ⟨.ok (.num 3),
        [⟨.str "A.txt", .num 1, .str "m1"⟩, ⟨.str "b.txt", .num 2, .str "m2"⟩,
          ⟨.str "c.TXT", .num 3, .str "m3"⟩],
        [.listInvoked, .postList]⟩) ∧
    List.Forall₂ (fun f row => buildRow f = .ok row)
      [entryA, entryB, entryC]
      [⟨.str "A.txt", .num 1, .str "m1"⟩, ⟨.str "b.txt", .num 2, .str "m2"⟩,
        ⟨.str "c.TXT", .num 3, .str "m3"⟩] ∧
    ([entryA, entryB, entryC] : List JValue).Perm [entryB, entryA, entryC] ∧
    ([entryA, entryB, entryC] : List JValue).Pairwise
      (fun f g => ∀ kf kg, sortKey f = .ok kf → sortKey g = .ok kg →
        strLe kf kg = true) ∧
    (∀ k, ([entryA, entryB, entryC] : List JValue).filter (keyIs k) =
      ([entryB, entryA, entryC] : List JValue).filter (keyIs k)) :=
  list_success_installs_sorted_entries "https://unpack" "tok" (some "tok")
    ⟨200, some listBody3, []⟩ listBody3 (.str "3 files") (.num 3)
    [entryB, entryA, entryC] [entryA, entryB, entryC]
    [⟨.str "A.txt", .num 1, .str "m1"⟩, ⟨.str "b.txt", .num 2, .str "m2"⟩,
      ⟨.str "c.TXT", .num 3, .str "m3"⟩]
    [oldRow] rfl rfl rfl rfl rfl rfl rfl rfl

/-- C1 as stated is false: a 200 response whose body is parseable JSON (but
carries no `message` field) leaves the prior cache in place instead of
replacing it with the response's sorted entries (here `[]`). -/
theorem list_parseable_body_not_sufficient_for_refresh :
    (⟨200, some (.obj [("files", .arr [])]), []⟩ : HttpResponse).status
      = 200 ∧
    (list_files (some "u") (some "tok")
        (.ok ⟨200, some (.obj [("files", .arr [])]), []⟩) [oldRow]).cache =
      [oldRow] ∧
    ([oldRow] : List Row) ≠ [] :=
  ⟨rfl, rfl, by simp⟩

/-- C2 (amended): on status 200 an unparsable body yields
`MalformedResponse`, which is distinct from the non-200 `HttpFailure`; but a
valid JSON object lacking `message` takes the generic unexpected-error path
(a `KeyError`), and a body containing only `message` is a success with the
defaults `files = []` and `count = 0` — missing `files`/`count` do not make
the response malformed. -/
theorem list_response_parse_outcome_taxonomy (u t : String)
    (rt : Option String) (cache : List Row)
    (htok : get_auth_token rt = some t) :
    (∀ r : HttpResponse, r.status = 200 → r.bodyJson = none →
      (list_files (some u) rt (.ok r) cache).outcome = .malformedResponse) ∧
    (∀ r : HttpResponse, r.status ≠ 200 →
      (list_files (some u) rt (.ok r) cache).outcome =
        .httpFailure r.status) ∧
    (∀ s, (ListOutcome.malformedResponse) ≠ .httpFailure s) ∧
    (∀ r v, r.status = 200 → r.bodyJson = some v →
      pySub v "message" = .error .keyError →
      (list_files (some u) rt (.ok r) cache).outcome =
        .unexpectedError .keyError) ∧
    (∀ r m, r.status = 200 → r.bodyJson = some (.obj [("message", m)]) →
      list_files (some u) rt (.ok r) cache =
        ⟨.ok (.num 0), [], [.listInvoked, .postList]⟩) := by
  refine ⟨?_, ?_, ?_, ?_, ?_⟩
  · intro r h200 hb
    simp [list_files, htok, h200, hb]
  · intro r hne
    simp [list_files, htok, hne]
  · intro s
    simp
  · intro r v h200 hb hm
    simp [list_files, htok, h200, hb, hm]
  · intro r m h200 hb
    simp [list_files, htok, h200, hb, pySub, pyGetD, lookupKV, pySortedCall,
      pySorted, computeKeys, insertRows, Except.map]

/-- Witness for C2: exercises the malformed branch at a concrete unparsable
200 response. -/
theorem list_response_parse_outcome_taxonomy_witness :
    (list_files (some "u") (some "tok") (.ok ⟨200, none, []⟩) [oldRow]).outcome
      = .malformedResponse :=
  (list_response_parse_outcome_taxonomy "u" "tok" (some "tok") [oldRow]
    rfl).1 ⟨200, none, []⟩ rfl rfl

/-- C2 as stated is false: a 200 body that is valid JSON but lacks both
`files` and `count` is a success (count reported 0), not `MalformedResponse`. -/
theorem list_missing_fields_still_succeeds :
    (list_files (some "u") (some "tok")
        (.ok ⟨200, some (.obj [("message", .str "ok")]), []⟩) []).outcome =
      .ok (.num 0) ∧
    ListOutcome.ok (.num 0) ≠ .malformedResponse :=
  ⟨rfl, by simp⟩

/-- C3 (amended): the cache survives every List failure that occurs before
the tree is cleared — missing configuration, unresolvable token, transport
error, non-200 status, unparsable 200 body, and a 200 body whose `message`
lookup fails; Download never modifies the cache, and Submit never modifies
the selection. (Failures raised after the clear, while sorting or inserting
entries, instead leave the cache emptied or partially repopulated.) -/
theorem list_failure_classes_preserve_cache (u : String) (rt : Option String)
    (cache : List Row) :
    (∀ net, (list_files none rt net cache).cache = cache) ∧
    (get_auth_token rt = none →
      ∀ net, (list_files (some u) rt net cache).cache = cache) ∧
    (∀ t, get_auth_token rt = some t →
      (list_files (some u) rt (.error ()) cache).cache = cache ∧
      (∀ r : HttpResponse, r.status ≠ 200 →
        (list_files (some u) rt (.ok r) cache).cache = cache) ∧
      (∀ r : HttpResponse, r.status = 200 → r.bodyJson = none →
        (list_files (some u) rt (.ok r) cache).cache = cache) ∧
      (∀ r v e, r.status = 200 → r.bodyJson = some v →
        pySub v "message" = .error e →
        (list_files (some u) rt (.ok r) cache).cache = cache)) ∧
    (∀ fn mainUrl net sp,
      (download_file fn mainUrl rt net sp cache).cache = cache) ∧
    (∀ sel uu fileRead net listNet,
      (submit_file sel uu rt fileRead net listNet cache).selection = sel) := by
  refine ⟨?_, ?_, ?_, ?_, ?_⟩
  · intro net
    rfl
  · intro hga net
    simp [list_files, hga]
  · intro t hga
    refine ⟨by simp [list_files, hga], ?_, ?_, ?_⟩
    · intro r hne
      simp [list_files, hga, hne]
    · intro r h200 hb
      simp [list_files, hga, h200, hb]
    · intro r v e h200 hb hm
      simp [list_files, hga, h200, hb, hm]
  · intro fn mainUrl net sp
    cases fn with
    | none => rfl
    | some f =>
      by_cases hf : f = ""
      · simp [download_file, hf]
      · cases mainUrl with
        | none => simp [download_file, hf]
        | some mu =>
          cases hga : get_auth_token rt with
          | none => simp [download_file, hf, hga]
          | some t =>
            cases net with
            | error e => simp [download_file, hf, hga]
            | ok r =>
              by_cases h2 : r.status = 200
              · cases sp <;> simp [download_file, hf, hga, h2]
              · by_cases h4 : r.status = 404 <;>
                  simp [download_file, hf, hga, h2, h4]
  · intro sel uu fileRead net listNet
    cases sel with
    | none => rfl
    | some filename =>
      cases uu with
      | none => rfl
      | some u' =>
        cases fileRead with
        | error e => rfl
        | ok content =>
          cases hga : get_auth_token rt with
          | none => simp [submit_file, hga]
          | some t =>
            cases net with
            | error e => simp [submit_file, hga]
            | ok r =>
              by_cases h2 : r.status = 200 <;> simp [submit_file, hga, h2]

/-- Witness for C3: a non-200 List failure over a non-empty cache leaves it
untouched. -/
theorem list_failure_classes_preserve_cache_witness :
    (list_files (some "u") (some "tok") (.ok ⟨500, none, []⟩) [oldRow]).cache
      = [oldRow] :=
  ((list_failure_classes_preserve_cache "u" (some "tok") [oldRow]).2.2.1
    "tok" rfl).2.1 ⟨500, none, []⟩ (by decide)

/-- C3 as stated is false: a 200 response that fails while computing the sort
keys (a non-dict entry) is a failing outcome, yet the cache was already
cleared — it ends empty rather than equal to its pre-operation contents. -/
theorem list_midway_failure_clears_cache :
    (list_files (some "u") (some "tok")
        (.ok ⟨200, some (.obj [("message", .str "ok"),
          ("files", .arr [.str "x"]), ("count", .num 1)]), []⟩)
        [oldRow]).outcome = .unexpectedError .attributeError ∧
    (list_files (some "u") (some "tok")
        (.ok ⟨200, some (.obj [("message", .str "ok"),
          ("files", .arr [.str "x"]), ("count", .num 1)]), []⟩)
        [oldRow]).cache = [] ∧
    ([] : List Row) ≠ [oldRow] :=
  ⟨rfl, rfl, by simp⟩

theorem list_files_events_ok (u t : String) (rt : Option String)
    (net : Except Unit HttpResponse) (cache : List Row)
    (htok : get_auth_token rt = some t) :
    (list_files (some u) rt net cache).events =
      [.listInvoked, .postList] := by
  cases net with
  | error e => simp [list_files, htok]
  | ok r =>
    by_cases h2 : r.status = 200
    · cases hb : r.bodyJson with
      | none => simp [list_files, htok, h2, hb]
      | some v =>
        cases hm : pySub v "message" with
        | error e => simp [list_files, htok, h2, hb, hm]
        | ok m =>
          cases hf : pyGetD v "files" (.arr []) with
          | error e => simp [list_files, htok, h2, hb, hm, hf]
          | ok files =>
            cases hs : pySortedCall files with
            | error e => simp [list_files, htok, h2, hb, hm, hf, hs]
            | ok fs =>
              rcases hi : insertRows fs [] with ⟨oe, rows⟩
              cases oe with
              | none =>
                cases hc : pyGetD v "count" (.num 0) <;>
                  simp [list_files, htok, h2, hb, hm, hf, hs, hi, hc]
              | some e => simp [list_files, htok, h2, hb, hm, hf, hs, hi]
    · simp [list_files, htok, h2]

/-- C4: a Submit whose POST is answered 200 reports success, invokes List
exactly once, and its final cache is exactly the chained List call's cache —
independent of the submit response body; every non-Ok Submit outcome leaves
the cache and the selection unchanged and invokes List zero times. -/
theorem submit_200_chains_single_list_refresh :
    (∀ (sel u t : String) (rt : Option String) (content : List Nat)
      (r : HttpResponse) (listNet : Except Unit HttpResponse)
      (cache : List Row), get_auth_token rt = some t → r.status = 200 →
      (submit_file (some sel) (some u) rt (.ok content) (.ok r) listNet
          cache).outcome = .ok ∧
      (submit_file (some sel) (some u) rt (.ok content) (.ok r) listNet
          cache).events.count .listInvoked = 1 ∧
      (submit_file (some sel) (some u) rt (.ok content) (.ok r) listNet
          cache).cache = (list_files (some u) rt listNet cache).cache ∧
      (submit_file (some sel) (some u) rt (.ok content) (.ok r) listNet
          cache).selection = some sel) ∧
    (∀ sel uu rt fileRead net listNet cache,
      (submit_file sel uu rt fileRead net listNet cache).outcome ≠ .ok →
      (submit_file sel uu rt fileRead net listNet cache).cache = cache ∧
      (submit_file sel uu rt fileRead net listNet cache).selection = sel ∧
      (submit_file sel uu rt fileRead net listNet cache).events.count
        .listInvoked = 0) := by
  constructor
  · intro sel u t rt content r listNet cache htok h200
    refine ⟨?_, ?_, ?_, ?_⟩
    · simp [submit_file, htok, h200]
    · simp [submit_file, htok, h200, list_files_events_ok u t rt listNet
        cache htok, List.count_cons, List.count_nil]
    · simp [submit_file, htok, h200]
    · simp [submit_file, htok, h200]
  · intro sel uu rt fileRead net listNet cache hne
    cases sel with
    | none => exact ⟨rfl, rfl, rfl⟩
    | some filename =>
      cases uu with
      | none => exact ⟨rfl, rfl, rfl⟩
      | some u' =>
        cases fileRead with
        | error e => exact ⟨rfl, rfl, rfl⟩
        | ok content =>
          cases hga : get_auth_token rt with
          | none => simp [submit_file, hga]
          | some t =>
            cases net with
            | error e => simp [submit_file, hga]
            | ok r =>
              by_cases h2 : r.status = 200
              · exfalso
                exact hne (by simp [submit_file, hga, h2])
              · simp [submit_file, hga, h2]

/-- Witness for C4: a 200 submit whose chained List hits a transport error —
List is still invoked exactly once and the cache is the List call's cache. -/
theorem submit_200_chains_single_list_refresh_witness :
    (submit_file (some "report.pdf") (some "u") (some "tok") (.ok [1, 2, 3])
        (.ok ⟨200, some (.str "ok"), []⟩) (.error ()) [oldRow]).outcome
      = .ok ∧
    (submit_file (some "report.pdf") (some "u") (some "tok") (.ok [1, 2, 3])
        (.ok ⟨200, some (.str "ok"), []⟩) (.error ()) [oldRow]).events.count
      .listInvoked = 1 ∧
    (submit_file (some "report.pdf") (some "u") (some "tok") (.ok [1, 2, 3])
        (.ok ⟨200, some (.str "ok"), []⟩) (.error ()) [oldRow]).cache =
      (list_files (some "u") (some "tok") (.error ()) [oldRow]).cache ∧
    (submit_file (some "report.pdf") (some "u") (some "tok") (.ok [1, 2, 3])
        (.ok ⟨200, some (.str "ok"), []⟩) (.error ()) [oldRow]).selection =
      some "report.pdf" :=
  submit_200_chains_single_list_refresh.1 "report.pdf" "u" "tok" (some "tok")
    [1, 2, 3] ⟨200, some (.str "ok"), []⟩ (.error ()) [oldRow] rfl rfl

/-- C7 (amended): an operation whose required endpoint URL is unconfigured,
or whose bearer token does not resolve, performs zero network posts; the
configuration-missing / missing-credential condition is the reported outcome
whenever no earlier local check (selection, file read, clicked item) already
failed. -/
theorem missing_config_or_token_means_zero_network :
    (∀ sel rt fileRead net listNet cache,
      (submit_file sel none rt fileRead net listNet cache).events.filter
        Event.isNetworkPost = []) ∧
    (∀ sel u rt fileRead net listNet cache, get_auth_token rt = none →
      (submit_file sel (some u) rt fileRead net listNet
        cache).events.filter Event.isNetworkPost = []) ∧
    (∀ s rt fileRead net listNet cache,
      (submit_file (some s) none rt fileRead net listNet cache).outcome =
        .configMissing) ∧
    (∀ s u rt content net listNet cache, get_auth_token rt = none →
      (submit_file (some s) (some u) rt (.ok content) net listNet
        cache).outcome = .missingToken) ∧
    (∀ rt net cache,
      (list_files none rt net cache).events.filter Event.isNetworkPost = [] ∧
      (list_files none rt net cache).outcome = .configMissing) ∧
    (∀ u rt net cache, get_auth_token rt = none →
      (list_files (some u) rt net cache).events.filter Event.isNetworkPost
        = [] ∧
      (list_files (some u) rt net cache).outcome = .missingToken) ∧
    (∀ fn rt net sp cache,
      (download_file fn none rt net sp cache).events.filter
        Event.isNetworkPost = []) ∧
    (∀ f rt net sp cache, f ≠ "" →
      (download_file (some f) none rt net sp cache).outcome =
        .configMissing) ∧
    (∀ fn u rt net sp cache, get_auth_token rt = none →
      (download_file fn (some u) rt net sp cache).events.filter
        Event.isNetworkPost = []) ∧
    (∀ f u rt net sp cache, f ≠ "" → get_auth_token rt = none →
      (download_file (some f) (some u) rt net sp cache).outcome =
        .missingToken) := by
  refine ⟨?_, ?_, ?_, ?_, ?_, ?_, ?_, ?_, ?_, ?_⟩
  · intro sel rt fileRead net listNet cache
    cases sel <;> rfl
  · intro sel u rt fileRead net listNet cache hga
    cases sel with
    | none => rfl
    | some s =>
      cases fileRead with
      | error e => rfl
      | ok content => simp [submit_file, hga]
  · intro s rt fileRead net listNet cache
    rfl
  · intro s u rt content net listNet cache hga
    simp [submit_file, hga]
  · intro rt net cache
    exact ⟨rfl, rfl⟩
  · intro u rt net cache hga
    constructor <;> simp [list_files, hga, Event.isNetworkPost]
  · intro fn rt net sp cache
    cases fn with
    | none => rfl
    | some f => by_cases hf : f = "" <;> simp [download_file, hf]
  · intro f rt net sp cache hf
    simp [download_file, hf]
  · intro fn u rt net sp cache hga
    cases fn with
    | none => rfl
    | some f => by_cases hf : f = "" <;> simp [download_file, hf, hga]
  · intro f u rt net sp cache hf hga
    simp [download_file, hf, hga]

/-- Witness for C7: List with no URL configured — the configuration error is
reported and no network event occurs. -/
theorem missing_config_or_token_means_zero_network_witness :
    (list_files none none (.error ()) [oldRow]).events.filter
        Event.isNetworkPost = [] ∧
    (list_files none none (.error ()) [oldRow]).outcome = .configMissing :=
  missing_config_or_token_means_zero_network.2.2.2.2.1 none (.error ())
    [oldRow]

/-- C7 as stated is false: a Submit attempted while neither URL nor token is
configured but with no file selected reports the no-selection error, not the
configuration-missing / missing-credential condition (the network is still
untouched). -/
theorem submit_noSelection_reported_over_missing_config :
    (submit_file none none none (.error ()) (.error ()) (.error ())
        []).outcome = .noSelection ∧
    SubmitOutcome.noSelection ≠ .configMissing ∧
    SubmitOutcome.noSelection ≠ .missingToken ∧
    (submit_file none none none (.error ()) (.error ()) (.error ())
        []).events = [] :=
  ⟨rfl, by simp, by simp, rfl⟩

/-- C9 (amended): in the 10-byte scenario the upload encoding is exactly 16
base64 characters (padded), the POST to the unpack endpoint carries it, and
the 200 response chains a List whose response fills the cache with the
`report.pdf` entry. -/
theorem submit_ten_byte_scenario :
    ([37, 80, 68, 70, 45, 49, 46, 52, 10, 37] : List Nat).length = 10 ∧
    (b64encode [37, 80, 68, 70, 45, 49, 46, 52, 10, 37]).length = 16 ∧
    submit_file (some "report.pdf") (some "https://unpack") (some "tok")
        (.ok [37, 80, 68, 70, 45, 49, 46, 52, 10, 37])
        (.ok ⟨200, some (.str "uploaded"), []⟩)
        (.ok ⟨200, some (.obj [("message", .str "1 file"),
          ("files", .arr [.obj [("name", .str "report.pdf"),
            ("metadata", .obj [("size", .num 10),
              ("lastModified", .str "m")])]]),
          ("count", .num 1)]), []⟩) [] =
      ⟨.ok, [⟨.str "report.pdf", .num 10, .str "m"⟩], some "report.pdf",
        [.postSubmit "report.pdf"
          (b64encode [37, 80, 68, 70, 45, 49, 46, 52, 10, 37]),
         .listInvoked, .postList]⟩ :=
  ⟨rfl, rfl, rfl⟩

/-- C9 as stated is false: the padded base64 encoding of a 10-byte file is 16
characters, not 14 or fewer. -/
theorem ten_byte_encode_exceeds_fourteen_chars :
    (b64encode [37, 80, 68, 70, 45, 49, 46, 52, 10, 37]).length = 16 ∧
    ¬ (b64encode [37, 80, 68, 70, 45, 49, 46, 52, 10, 37]).length ≤ 14 :=
  ⟨rfl, by decide⟩
